import Mathlib

/-!
Shallow embedding of the animation/timing core of `src/script.js` (the Are.na
tarot page), and proofs of the specification's claims about it.

The tween step that recurs throughout the source is

  const progress = Math.min(elapsed / duration, 1);
  const easedProgress = easing(progress);
  value = start + (target - start) * easedProgress;

Finite-number arithmetic is modelled over `ℚ`; the JavaScript special values
(NaN, Infinity) that arise when `duration = 0` are modelled separately by the
`JSNum` type further below.
-/

namespace ArenaTarot

/-- progress computation shared by every tween in the source:
`Math.min(elapsed / duration, 1)` (finite-value case, `duration ≠ 0`). -/
def tweenProgress (elapsed duration : ℚ) : ℚ :=
  min (elapsed / duration) 1

/-- linear interpolation applied after easing:
`start + (target - start) * easedProgress`. -/
def lerp (start target eased : ℚ) : ℚ :=
  start + (target - start) * eased

/-- value handed to the update callback at a given elapsed time:
the eased, interpolated tween value. -/
def tweenValue (start target : ℚ) (easing : ℚ → ℚ) (duration elapsed : ℚ) : ℚ :=
  lerp start target (easing (tweenProgress elapsed duration))

/-- ease-out cubic from `updateCardPosition` (and `moveToPosition`):
`1 - Math.pow(1 - progress, 3)`. -/
def easeOutCubic (t : ℚ) : ℚ := 1 - (1 - t) ^ 3

/-- ease-out quad from `gsapLikeScale`'s `updateScale`:
`1 - Math.pow(1 - progress, 2)`. -/
def easeOutQuad (t : ℚ) : ℚ := 1 - (1 - t) ^ 2

/-- ease-in-out quad from `updateCardRotation`:
`progress < 0.5 ? 2 * progress * progress : 1 - Math.pow(-2 * progress + 2, 2) / 2`. -/
def easeInOutQuad (t : ℚ) : ℚ :=
  if t < 1 / 2 then 2 * t * t else 1 - (-2 * t + 2) ^ 2 / 2

/-- oscillating-appear easing from `animateLabelAppearance`'s `updateLabelOpacity`:
`Math.sin(progress * Math.PI / 2) + 0.2 * Math.sin(progress * 10) * (1 - progress)`.
The sum of the two locals `easedProgress` and `oscillation` is assigned, unclamped,
to `material.opacity`. -/
noncomputable def oscillatingEase (t : ℝ) : ℝ :=
  Real.sin (t * Real.pi / 2) + 0.2 * Real.sin (t * 10) * (1 - t)

/-- C1: at elapsed = t * duration with duration > 0 and t ∈ [0,1], the tween value
equals start + (target - start) * easing(t); in particular a tween from 0 to 100
over 1000 ms with ease-out quad passes 75 at 500 ms and 100 at 1000 ms. -/
theorem tween_value_at_progress_sample :
    (∀ (a b d : ℚ) (e : ℚ → ℚ) (t : ℚ), 0 < d → 0 ≤ t → t ≤ 1 →
      tweenValue a b e d (t * d) = a + (b - a) * e t) ∧
    tweenValue 0 100 easeOutQuad 1000 500 = 75 ∧
    tweenValue 0 100 easeOutQuad 1000 1000 = 100 := by
  refine ⟨fun a b d e t hd _ ht1 => ?_, by norm_num [tweenValue, tweenProgress, lerp,
    easeOutQuad], by norm_num [tweenValue, tweenProgress, lerp, easeOutQuad]⟩
  have hprog : tweenProgress (t * d) d = t := by
    unfold tweenProgress
    rw [mul_div_assoc, div_self hd.ne', mul_one]
    exact min_eq_left ht1
  rw [tweenValue, hprog, lerp]

/-- Witness for C1: the general part applied to the end-to-end scenario
tween(0, 100, 1000, ease-out-quad) sampled at t = 1/2, i.e. elapsed = 500 ms. -/
theorem tween_value_at_progress_sample_witness :
    tweenValue 0 100 easeOutQuad 1000 (1 / 2 * 1000) =
      0 + (100 - 0) * easeOutQuad (1 / 2) :=
  tween_value_at_progress_sample.1 0 100 1000 easeOutQuad (1 / 2)
    (by norm_num) (by norm_num) (by norm_num)

/-- C7: every supported easing is 0 at progress 0 and 1 at progress 1; the
oscillating-appear easing equals exactly 1 at t = 1 because its oscillation
term carries the factor (1 - t), which vanishes there. -/
theorem easing_endpoints :
    easeOutCubic 0 = 0 ∧ easeOutCubic 1 = 1 ∧
    easeInOutQuad 0 = 0 ∧ easeInOutQuad 1 = 1 ∧
    easeOutQuad 0 = 0 ∧ easeOutQuad 1 = 1 ∧
    oscillatingEase 0 = 0 ∧ oscillatingEase 1 = 1 := by
  refine ⟨by norm_num [easeOutCubic], by norm_num [easeOutCubic],
    by norm_num [easeInOutQuad], by norm_num [easeInOutQuad],
    by norm_num [easeOutQuad], by norm_num [easeOutQuad], ?_, ?_⟩
  · simp [oscillatingEase]
  · simp [oscillatingEase, Real.sin_pi_div_two]

/-! ## Animation sequencer: staggered phases and the busy flag

In `animateCardsEntry` each card's tween is registered at phase start with
`setTimeout(() => { ... }, i * 150)` and runs for a common duration (600 ms);
the completion branch of the last card's tween (`i === cardMeshes.length - 1`)
clears the global `animating` flag. `flipCard` and `resetTarotReading` both
begin with `if (animating) return;` — a busy request is dropped as a no-op,
nothing is thrown — and set `animating = true` when their phase starts.
-/

/-- delay, measured from phase start, before item i's tween begins:
`setTimeout(..., i * stagger)` registered for every item at phase start. -/
def staggerDelay (stagger : ℚ) (i : ℕ) : ℚ := i * stagger

/-- a tween started at time s with duration D reaches progress 1 at s + D
(the first ideal tick not before that time runs its completion branch). -/
def tweenEndTime (s D : ℚ) : ℚ := s + D

/-- completion time of item i in a staggered phase with common duration D. -/
def phaseItemEndTime (stagger D : ℚ) (i : ℕ) : ℚ :=
  tweenEndTime (staggerDelay stagger i) D

/-- time at which the phase's completion fires: the completion branch of the
last item's tween (index N - 1), which is the branch clearing `animating`. -/
def phaseCompletionTime (N : ℕ) (stagger D : ℚ) : ℚ :=
  phaseItemEndTime stagger D (N - 1)

/-- global sequencer state: the `animating` flag plus the absolute time at
which the phase currently in flight completes. -/
structure SeqState where
  animating : Bool
  phaseEnd : ℚ
deriving DecidableEq

/-- request to start a staggered phase of N items at time `now`: rejected as a
no-op while `animating` is set (`if (animating) return;`), otherwise the flag
is raised and the phase will complete at `now + phaseCompletionTime N d D`.
The returned Bool reports acceptance (false = busy rejection). -/
def startPhase (s : SeqState) (now : ℚ) (N : ℕ) (d D : ℚ) : SeqState × Bool :=
  if s.animating then (s, false)
  else ({ animating := true, phaseEnd := now + phaseCompletionTime N d D }, true)

/-- per-frame tick at time `now`: once the last item's tween has reached
progress 1 its completion branch runs and clears the flag. -/
def seqTick (s : SeqState) (now : ℚ) : SeqState :=
  if s.animating && decide (s.phaseEnd ≤ now) then { s with animating := false } else s

/-- C2: the busy flag rises at phase start, a start request arriving while a
phase is in flight is rejected as a no-op (never thrown: `startPhase` is total
and returns the state unchanged), the flag stays up strictly before the
phase's completion time and is cleared at any tick from that time on, after
which a new phase is accepted. -/
theorem busy_flag_discipline (s : SeqState) (now now' : ℚ) (N : ℕ) (d D : ℚ) :
    (s.animating = false →
      (startPhase s now N d D).1.animating = true ∧ (startPhase s now N d D).2 = true) ∧
    (s.animating = true → startPhase s now N d D = (s, false)) ∧
    (s.animating = true → now' < s.phaseEnd → (seqTick s now').animating = true) ∧
    (s.phaseEnd ≤ now' → (seqTick s now').animating = false ∧
      ((startPhase (seqTick s now') now' N d D).2 = true ∨ s.animating = false)) := by
  refine ⟨fun h => ?_, fun h => ?_, fun h h' => ?_, fun h => ?_⟩
  · simp [startPhase, h]
  · simp [startPhase, h]
  · simp [seqTick, h, not_le.mpr h']
  · cases ha : s.animating with
    | false => simp [seqTick, startPhase, ha, h]
    | true => simp [seqTick, startPhase, ha, h]

/-- Witness for C2, the spec's busy-flag scenario: phase A of duration 600 ms
starts at time 0; a request for phase B at elapsed 100 is rejected with the
state unchanged; at elapsed 601 the completion tick has cleared the flag and a
new phase is accepted. -/
theorem busy_flag_discipline_witness :
    (startPhase ⟨false, 0⟩ 0 1 0 600).1 = ⟨true, 600⟩ ∧
    startPhase ⟨true, 600⟩ 100 1 0 600 = (⟨true, 600⟩, false) ∧
    (seqTick ⟨true, 600⟩ 601).animating = false ∧
    (startPhase (seqTick ⟨true, 600⟩ 601) 601 1 0 600).2 = true := by
  have h1 := (busy_flag_discipline ⟨false, 0⟩ 0 100 1 0 600).1 rfl
  have h2 := (busy_flag_discipline ⟨true, 600⟩ 100 100 1 0 600).2.1 rfl
  have h3 := (busy_flag_discipline ⟨true, 600⟩ 0 601 1 0 600).2.2.2 (by norm_num)
  refine ⟨?_, h2, h3.1, h3.2.resolve_right (by decide)⟩
  have : (startPhase ⟨false, 0⟩ 0 1 0 600).1.animating = true := h1.1
  simp only [startPhase, Bool.false_eq_true, if_false] at this ⊢
  norm_num [phaseCompletionTime, phaseItemEndTime, tweenEndTime, staggerDelay]

/-- C3: in a staggered phase, item i's tween starts exactly i * d after phase
start — the delay registered for it at phase start, independent of every other
item's duration — each item's completion is no later than the phase's
completion, and for N = 5, d = 150 the phase completes at 4 * 150 + D. -/
theorem stagger_phase_completion (N i : ℕ) (d D : ℚ) (hd : 0 ≤ d) (hi : i < N) :
    staggerDelay d i = i * d ∧
    phaseItemEndTime d D i ≤ phaseCompletionTime N d D ∧
    phaseCompletionTime 5 150 D = 4 * 150 + D := by
  refine ⟨rfl, ?_, by norm_num [phaseCompletionTime, phaseItemEndTime,
    tweenEndTime, staggerDelay]⟩
  unfold phaseCompletionTime phaseItemEndTime tweenEndTime staggerDelay
  have hle : i ≤ N - 1 := Nat.le_sub_one_of_lt hi
  have : (i : ℚ) ≤ ((N - 1 : ℕ) : ℚ) := Nat.cast_le.mpr hle
  nlinarith

/-- Witness for C3: the spec's scenario N = 5 items, stagger 150 ms, common
duration 600 ms; item 2 starts at 300 ms and completes no later than the
phase's completion at 4 * 150 + 600 = 1200 ms. -/
theorem stagger_phase_completion_witness :
    staggerDelay 150 2 = 2 * 150 ∧
    phaseItemEndTime 150 600 2 ≤ phaseCompletionTime 5 150 600 ∧
    phaseCompletionTime 5 150 600 = 4 * 150 + 600 :=
  stagger_phase_completion 5 2 150 600 (by norm_num) (by norm_num)

/-! ## Tween driver ticks: completion fires once and scheduling stops

`updateCardRotation` (and `updateCardPosition`) end with

  if (progress < 1) { requestAnimationFrame(updateCardRotation); }
  else { animating = false; ... }

so a tick runs only while one is scheduled, reschedules itself only while
progress < 1, and runs the completion branch — without rescheduling — on the
first tick at which progress has reached 1.
-/

/-- driver state: whether a further tick is scheduled (a pending
`requestAnimationFrame` callback) and how many times the completion branch
has run. -/
structure DriverState where
  active : Bool
  completeCalls : ℕ
deriving DecidableEq

/-- one scheduled invocation of the update function at a given elapsed time:
a stopped driver does nothing (no callback is pending); otherwise progress
below 1 reschedules, and progress 1 runs the completion branch exactly once
and stops scheduling. -/
def driverTick (duration : ℚ) (s : DriverState) (elapsed : ℚ) : DriverState :=
  if s.active = false then s
  else if tweenProgress elapsed duration < 1 then s
  else { active := false, completeCalls := s.completeCalls + 1 }

/-- run the driver over a whole sequence of tick times. -/
def runTicks (duration : ℚ) (s : DriverState) : List ℚ → DriverState
  | [] => s
  | e :: es => runTicks duration (driverTick duration s e) es

/-- completion-count invariant preserved by every tick: while active the
completion branch has not yet run, and it never runs twice. -/
theorem driverTick_invariant (duration : ℚ) (s : DriverState) (e : ℚ)
    (h : (s.active = true → s.completeCalls = 0) ∧ s.completeCalls ≤ 1) :
    ((driverTick duration s e).active = true →
      (driverTick duration s e).completeCalls = 0) ∧
    (driverTick duration s e).completeCalls ≤ 1 := by
  unfold driverTick
  rcases ha : s.active with _ | _
  · simpa using h
  · rcases lt_or_le (tweenProgress e duration) 1 with hp | hp
    · simpa [ha, hp] using h
    · simp only [ha, not_lt.mpr hp]
      refine ⟨fun hc => by simp at hc, ?_⟩
      simp [h.1 ha]

theorem runTicks_invariant (duration : ℚ) (ticks : List ℚ) (s : DriverState)
    (h : (s.active = true → s.completeCalls = 0) ∧ s.completeCalls ≤ 1) :
    (runTicks duration s ticks).completeCalls ≤ 1 := by
  induction ticks generalizing s with
  | nil => exact h.2
  | cons e es ih => exact ih _ (driverTick_invariant duration s e h)

/-- C5: a tick after the driver has stopped is a no-op (onComplete is never
re-invoked), the first tick at which progress reaches 1 runs the completion
branch and stops scheduling, and over any sequence of ticks from a fresh
tween the completion branch runs at most once. -/
theorem complete_fires_once (duration : ℚ) (s : DriverState) (e : ℚ)
    (ticks : List ℚ) :
    (s.active = false → driverTick duration s e = s) ∧
    (s.active = true → 1 ≤ tweenProgress e duration →
      (driverTick duration s e).active = false ∧
      (driverTick duration s e).completeCalls = s.completeCalls + 1) ∧
    (runTicks duration ⟨true, 0⟩ ticks).completeCalls ≤ 1 := by
  refine ⟨fun h => by simp [driverTick, h], fun h h' => ?_,
    runTicks_invariant duration ticks _ (by simp)⟩
  simp [driverTick, h, not_lt.mpr h']

/-- Witness for C5: a flip tween of duration 800 ms ticked at 400, 800 and
900 ms completes exactly once; the 800 ms tick fires the completion branch and
the stopped driver ignores the 900 ms tick. -/
theorem complete_fires_once_witness :
    driverTick 800 ⟨false, 1⟩ 900 = ⟨false, 1⟩ ∧
    (driverTick 800 ⟨true, 0⟩ 800).active = false ∧
    (driverTick 800 ⟨true, 0⟩ 800).completeCalls = 0 + 1 ∧
    (runTicks 800 ⟨true, 0⟩ [400, 800, 900]).completeCalls ≤ 1 := by
  have h := complete_fires_once 800 ⟨false, 1⟩ 900 [400, 800, 900]
  have h' := (complete_fires_once 800 ⟨true, 0⟩ 800 []).2.1 rfl
    (by norm_num [tweenProgress])
  exact ⟨h.1 rfl, h'.1, h'.2, h.2.2⟩

/-! ## flipCard error path (C10)

`flipCard` drops the request while `animating` is set, while the card is
already revealed, or once `revealedCardCount >= MAX_REVEALED_CARDS`; otherwise
it sets `userData.selected` and `userData.revealed` and increments
`revealedCardCount` before fetching. Each failure branch (fetch rejection,
missing image in the card data, texture-load rejection) then runs

  cardGroup.userData.revealed = false;
  cardGroup.userData.selected = false;
  revealedCardCount--;
-/

/-- maximum number of revealable cards, `MAX_REVEALED_CARDS = 3` in the source. -/
def MAX_REVEALED_CARDS : ℕ := 3

/-- state touched by `flipCard`: the global `animating` flag, the clicked
card's `userData.revealed` / `userData.selected` flags and the global
`revealedCardCount`. -/
structure FlipState where
  animating : Bool
  revealed : Bool
  selected : Bool
  revealedCardCount : ℕ
deriving DecidableEq

/-- outcome of the asynchronous content fetch and texture load chained inside
`flipCard`: success, fetch rejection, card data without a valid image, or
texture-load rejection. -/
inductive FetchOutcome where
  | ok
  | fetchError
  | noValidImage
  | textureError
deriving DecidableEq

/-- flipCard with the given fetch/texture outcome: guards, optimistic
mutation (both flags set, counter incremented), then on failure the restoring
assignments of the source's catch/else branches. -/
def flipCard (s : FlipState) (outcome : FetchOutcome) : FlipState :=
  if s.animating then s
  else if s.revealed then s
  else if MAX_REVEALED_CARDS ≤ s.revealedCardCount then s
  else
    let s1 : FlipState :=
      { s with revealed := true, selected := true,
               revealedCardCount := s.revealedCardCount + 1 }
    match outcome with
    | .ok => s1
    | _ => { s1 with revealed := false, selected := false,
                     revealedCardCount := s1.revealedCardCount - 1 }

/-- C10: on any failure outcome, flipCard restores everything it mutated — a
card that was unrevealed and unselected (as `createCards` initializes every
card, and as every reset leaves it) is unrevealed and unselected again and the
counter is back at its prior value, so a failed flip leaves the reveal state
unchanged. -/
theorem flipCard_failure_restores (s : FlipState) (outcome : FetchOutcome)
    (ha : s.animating = false) (hr : s.revealed = false) (hs : s.selected = false)
    (hc : s.revealedCardCount < MAX_REVEALED_CARDS) (hf : outcome ≠ .ok) :
    flipCard s outcome = s := by
  cases s
  simp only at ha hr hs
  subst ha hr hs
  cases outcome with
  | ok => exact absurd rfl hf
  | fetchError => simp [flipCard, not_le.mpr hc]
  | noValidImage => simp [flipCard, not_le.mpr hc]
  | textureError => simp [flipCard, not_le.mpr hc]

/-- Witness for C10: a texture-load failure on a fresh card with one card
already revealed leaves the state exactly as it was. -/
theorem flipCard_failure_restores_witness :
    flipCard ⟨false, false, false, 1⟩ .textureError = ⟨false, false, false, 1⟩ :=
  flipCard_failure_restores ⟨false, false, false, 1⟩ .textureError rfl rfl rfl
    (by norm_num [MAX_REVEALED_CARDS]) (by decide)

/-! ## Retry-on-empty fetch loop (C9)

`fetchRandomContent` (and `fetchSingleCardContent`) filter the fetched blocks
with `hasValidImage` and, when the filtered list is empty, recurse with a new
random query:

  if (cards.length === 0) { return fetchRandomContent(); }

The source puts no bound on this recursion. The embedding adds an explicit
fuel parameter; exhausting any amount of fuel without a non-empty result
returns none, so "none for every fuel" renders non-termination.
-/

/-- retry loop of `fetchRandomContent`: attempt n yields the blocks
`attempts n`, filtered by the validity predicate; an empty result re-queries,
a non-empty one is returned. -/
def fetchLoop {α : Type} (valid : α → Bool) (attempts : ℕ → List α) :
    ℕ → ℕ → Option (List α)
  | 0, _ => none
  | fuel + 1, n =>
    let cs := (attempts n).filter valid
    if cs.isEmpty then fetchLoop valid attempts fuel (n + 1) else some cs

/-- C9: the loop returns only non-empty filtered results, a first non-empty
attempt is returned immediately, and for an endless sequence of empty results
no amount of fuel lets it terminate — the retry recursion has no cap. -/
theorem fetch_retry_unbounded {α : Type} (valid : α → Bool)
    (attempts : ℕ → List α) (fuel n₀ : ℕ) :
    ((∀ n, (attempts n).filter valid = []) →
      fetchLoop valid attempts fuel n₀ = none) ∧
    (∀ cs, fetchLoop valid attempts fuel n₀ = some cs → cs ≠ []) ∧
    ((attempts n₀).filter valid ≠ [] →
      fetchLoop valid attempts (fuel + 1) n₀ = some ((attempts n₀).filter valid)) := by
  refine ⟨?_, ?_, fun h => by simp [fetchLoop, List.isEmpty_iff, h]⟩
  · intro hempty
    induction fuel generalizing n₀ with
    | zero => rfl
    | succ k ih => simp [fetchLoop, hempty n₀, ih]
  · induction fuel generalizing n₀ with
    | zero => intro cs h; cases h
    | succ k ih =>
      intro cs h
      simp only [fetchLoop] at h
      by_cases he : ((attempts n₀).filter valid).isEmpty
      · exact ih (n₀ + 1) cs (by simpa [he] using h)
      · have hcs : cs = (attempts n₀).filter valid := by
          simpa [he] using h.symm
        subst hcs
        intro hnil
        rw [hnil] at he
        exact he rfl

/-- Witness for C9: with every attempt empty, five units of fuel starting at
attempt 0 still return none. -/
theorem fetch_retry_unbounded_witness :
    fetchLoop (fun _ : ℕ => true) (fun _ => []) 5 0 = none :=
  (fetch_retry_unbounded (fun _ : ℕ => true) (fun _ => []) 5 0).1 fun _ => rfl

/-! ## Selection with removal (C4)

`selectAndPlaceFourCards` starts from `cardsToRemove = [...shuffleCards]` and,
for `i = 0 .. numCardsToKeep - 1`, draws
`randomIndex = Math.floor(Math.random() * cardsToRemove.length)`, removes that
entry with `splice`, tags it `userData.positionIndex = i`, and pushes it onto
`cardsToKeep`; whatever remains in `cardsToRemove` flies away. The random
draw, an index uniformly below the current pool length, is modelled by an
arbitrary natural source reduced modulo the pool length.
-/

/-- card count of the cosmic shuffle, `numShuffleCards = 60` in
`createShuffleAnimation`. -/
def numShuffleCards : ℕ := 60

/-- cards kept by the cull, `numCardsToKeep = 4` in `selectAndPlaceFourCards`. -/
def numCardsToKeep : ℕ := 4

/-- Math.floor(Math.random() * n) : an index below n, obtained here from the
raw draw r of a deterministic random source. -/
def drawIndex (r n : ℕ) : ℕ := r % n

/-- selection loop of `selectAndPlaceFourCards`: k draws from the pool, each
removing the drawn entry (`splice(randomIndex, 1)`) and recording the loop
counter as the drawn card's position index. Returns (kept with position
indices, remaining pool). The `0 < pool.length` guard is the source's
`if (cardsToRemove.length > 0)`. -/
def selectLoop {α : Type} (rand : ℕ → ℕ) : ℕ → ℕ → List α → List (ℕ × α) × List α
  | _, 0, pool => ([], pool)
  | step, k + 1, pool =>
    if h : 0 < pool.length then
      let sel := pool.get ⟨drawIndex (rand step) pool.length, Nat.mod_lt _ h⟩
      let out := selectLoop rand (step + 1) k (pool.eraseIdx (drawIndex (rand step) pool.length))
      ((step, sel) :: out.1, out.2)
    else ([], pool)

/-- removing the entry drawn at index i and putting it back in front is a
permutation of the pool. -/
theorem get_cons_eraseIdx_perm {α : Type} (l : List α) (i : ℕ) (h : i < l.length) :
    (l.get ⟨i, h⟩ :: l.eraseIdx i).Perm l := by
  have h1 : l.take i ++ l[i] :: l.drop (i + 1) = l := by
    rw [List.getElem_cons_drop, List.take_append_drop]
  rw [List.eraseIdx_eq_take_drop_succ, List.get_eq_getElem]
  conv_rhs => rw [← h1]
  exact List.perm_middle.symm

theorem selectLoop_spec {α : Type} (rand : ℕ → ℕ) (k : ℕ) :
    ∀ (step : ℕ) (pool : List α), k ≤ pool.length →
      (selectLoop rand step k pool).1.length = k ∧
      (selectLoop rand step k pool).2.length = pool.length - k ∧
      (selectLoop rand step k pool).1.map Prod.fst = List.range' step k ∧
      ((selectLoop rand step k pool).1.map Prod.snd ++
        (selectLoop rand step k pool).2).Perm pool := by
  induction k with
  | zero => intro step pool _; simp [selectLoop]
  | succ k ih =>
    intro step pool hk
    have hpos : 0 < pool.length := Nat.lt_of_lt_of_le (Nat.succ_pos k) hk
    have hidx : drawIndex (rand step) pool.length < pool.length := Nat.mod_lt _ hpos
    have herase : (pool.eraseIdx (drawIndex (rand step) pool.length)).length =
        pool.length - 1 := List.length_eraseIdx_of_lt hidx
    have hk' : k ≤ (pool.eraseIdx (drawIndex (rand step) pool.length)).length := by
      omega
    obtain ⟨ih1, ih2, ih3, ih4⟩ := ih (step + 1)
      (pool.eraseIdx (drawIndex (rand step) pool.length)) hk'
    refine ⟨?_, ?_, ?_, ?_⟩
    · simp [selectLoop, hpos, ih1]
    · simp only [selectLoop, hpos, dif_pos]
      omega
    · simp only [selectLoop, hpos, dif_pos, List.map_cons, ih3, List.range'_succ]
    · simp only [selectLoop, hpos, dif_pos, List.map_cons, List.cons_append]
      exact (ih4.cons _).trans (get_cons_eraseIdx_perm pool _ hidx)

theorem selectLoop_congr {α : Type} (rand rand' : ℕ → ℕ) (k : ℕ) :
    ∀ (step : ℕ) (pool : List α),
      (∀ j, step ≤ j → j < step + k → rand j = rand' j) →
      selectLoop rand step k pool = selectLoop rand' step k pool := by
  induction k with
  | zero => intro step pool _; rfl
  | succ k ih =>
    intro step pool hr
    have hstep : rand step = rand' step := hr step le_rfl (by omega)
    by_cases hpos : 0 < pool.length
    · simp only [selectLoop, hpos, dif_pos, hstep]
      rw [ih (step + 1) _ fun j h1 h2 => hr j (by omega) (by omega)]
    · simp [selectLoop, hpos]

/-- C4: with K ≤ N draws from a nodup pool of N candidates, the kept list has
exactly K distinct elements tagged with position indices 0..K-1 in draw
order, the remaining pool has N - K elements, kept and remaining together are
a permutation of the pool, and the outcome is determined by the first K draws
of the random source. -/
theorem select_without_replacement {α : Type} (rand rand' : ℕ → ℕ)
    (pool : List α) (K : ℕ) (hK : K ≤ pool.length) (hnd : pool.Nodup)
    (hr : ∀ j, j < K → rand j = rand' j) :
    (selectLoop rand 0 K pool).1.length = K ∧
    (selectLoop rand 0 K pool).2.length = pool.length - K ∧
    (selectLoop rand 0 K pool).1.map Prod.fst = List.range K ∧
    ((selectLoop rand 0 K pool).1.map Prod.snd ++
      (selectLoop rand 0 K pool).2).Perm pool ∧
    ((selectLoop rand 0 K pool).1.map Prod.snd).Nodup ∧
    selectLoop rand' 0 K pool = selectLoop rand 0 K pool := by
  obtain ⟨h1, h2, h3, h4⟩ := selectLoop_spec rand K 0 pool hK
  refine ⟨h1, h2, by rw [h3, List.range_eq_range'], h4, ?_, ?_⟩
  · exact ((h4.symm.nodup hnd).of_append_left)
  · exact (selectLoop_congr rand rand' K 0 pool fun j h1 h2 => hr j (by omega)).symm

/-- Witness for C4: the program's pool size 60 and K = 4, with a concrete
deterministic random source. -/
theorem select_without_replacement_witness :
    (selectLoop (fun j => 17 * j + 5) 0 numCardsToKeep (List.range numShuffleCards)).1.length
        = numCardsToKeep ∧
    (selectLoop (fun j => 17 * j + 5) 0 numCardsToKeep (List.range numShuffleCards)).2.length
        = (List.range numShuffleCards).length - numCardsToKeep ∧
    (selectLoop (fun j => 17 * j + 5) 0 numCardsToKeep (List.range numShuffleCards)).1.map
        Prod.fst = List.range numCardsToKeep ∧
    ((selectLoop (fun j => 17 * j + 5) 0 numCardsToKeep (List.range numShuffleCards)).1.map
        Prod.snd ++
      (selectLoop (fun j => 17 * j + 5) 0 numCardsToKeep (List.range numShuffleCards)).2).Perm
        (List.range numShuffleCards) ∧
    ((selectLoop (fun j => 17 * j + 5) 0 numCardsToKeep (List.range numShuffleCards)).1.map
        Prod.snd).Nodup ∧
    selectLoop (fun j => 17 * j + 5) 0 numCardsToKeep (List.range numShuffleCards) =
      selectLoop (fun j => 17 * j + 5) 0 numCardsToKeep (List.range numShuffleCards) :=
  select_without_replacement (fun j => 17 * j + 5) (fun j => 17 * j + 5)
    (List.range numShuffleCards) numCardsToKeep
    (by simp [numCardsToKeep, numShuffleCards])
    (List.nodup_range numShuffleCards) (fun j _ => rfl)

/-! ## JavaScript number semantics for the zero-duration case (C6)

The progress line `Math.min(elapsed / duration, 1)` divides by `duration`
unconditionally. JavaScript numbers are IEEE doubles: `0 / 0` is NaN,
`e / 0` for `e > 0` is +Infinity, `Math.min(NaN, 1)` is NaN, every comparison
against NaN is false and NaN propagates through arithmetic (including
`0 * NaN = NaN`). `JSNum` models the finite values as rationals together with
these three special values, enough to evaluate the tween step at
`duration = 0` exactly as the source would.
-/

/-- JavaScript number: finite value, NaN, +Infinity or -Infinity. -/
inductive JSNum where
  | num : ℚ → JSNum
  | nan : JSNum
  | posInf : JSNum
  | negInf : JSNum
deriving DecidableEq

/-- JavaScript division, restricted to the cases of IEEE doubles modelled
here (finite signed zero is identified with 0). -/
def jsDiv : JSNum → JSNum → JSNum
  | .nan, _ => .nan
  | _, .nan => .nan
  | .num a, .num b =>
    if b = 0 then (if a = 0 then .nan else if 0 < a then .posInf else .negInf)
    else .num (a / b)
  | .num _, .posInf => .num 0
  | .num _, .negInf => .num 0
  | .posInf, .num b => if 0 ≤ b then .posInf else .negInf
  | .negInf, .num b => if 0 ≤ b then .negInf else .posInf
  | .posInf, .posInf => .nan
  | .posInf, .negInf => .nan
  | .negInf, .posInf => .nan
  | .negInf, .negInf => .nan

/-- Math.min: NaN if either argument is NaN, otherwise the smaller value. -/
def jsMin : JSNum → JSNum → JSNum
  | .nan, _ => .nan
  | _, .nan => .nan
  | .num a, .num b => .num (min a b)
  | .num a, .posInf => .num a
  | .posInf, .num b => .num b
  | .num _, .negInf => .negInf
  | .negInf, .num _ => .negInf
  | .posInf, .posInf => .posInf
  | .posInf, .negInf => .negInf
  | .negInf, .posInf => .negInf
  | .negInf, .negInf => .negInf

/-- JavaScript strict less-than: false whenever either side is NaN. -/
def jsLt : JSNum → JSNum → Bool
  | .nan, _ => false
  | _, .nan => false
  | .num a, .num b => a < b
  | .num _, .posInf => true
  | .num _, .negInf => false
  | .posInf, _ => false
  | .negInf, .negInf => false
  | .negInf, _ => true

/-- JavaScript addition on the modelled values. -/
def jsAdd : JSNum → JSNum → JSNum
  | .nan, _ => .nan
  | _, .nan => .nan
  | .num a, .num b => .num (a + b)
  | .num _, .posInf => .posInf
  | .num _, .negInf => .negInf
  | .posInf, .num _ => .posInf
  | .negInf, .num _ => .negInf
  | .posInf, .posInf => .posInf
  | .posInf, .negInf => .nan
  | .negInf, .posInf => .nan
  | .negInf, .negInf => .negInf

/-- JavaScript negation. -/
def jsNeg : JSNum → JSNum
  | .num a => .num (-a)
  | .nan => .nan
  | .posInf => .negInf
  | .negInf => .posInf

/-- JavaScript subtraction. -/
def jsSub (a b : JSNum) : JSNum := jsAdd a (jsNeg b)

/-- JavaScript multiplication; note `0 * Infinity = NaN` and `0 * NaN = NaN`. -/
def jsMul : JSNum → JSNum → JSNum
  | .nan, _ => .nan
  | _, .nan => .nan
  | .num a, .num b => .num (a * b)
  | .num a, .posInf => if a = 0 then .nan else if 0 < a then .posInf else .negInf
  | .num a, .negInf => if a = 0 then .nan else if 0 < a then .negInf else .posInf
  | .posInf, .num b => if b = 0 then .nan else if 0 < b then .posInf else .negInf
  | .negInf, .num b => if b = 0 then .nan else if 0 < b then .negInf else .posInf
  | .posInf, .posInf => .posInf
  | .posInf, .negInf => .negInf
  | .negInf, .posInf => .negInf
  | .negInf, .negInf => .posInf

/-- progress line of every tween in the source, over JavaScript numbers:
`Math.min(elapsed / duration, 1)`. -/
def jsProgress (elapsed duration : JSNum) : JSNum :=
  jsMin (jsDiv elapsed duration) (.num 1)

/-- ease-out cubic `1 - Math.pow(1 - progress, 3)` over JavaScript numbers. -/
def jsEaseOutCubic (t : JSNum) : JSNum :=
  jsSub (.num 1) (jsMul (jsMul (jsSub (.num 1) t) (jsSub (.num 1) t)) (jsSub (.num 1) t))

/-- value passed to the update write at a given elapsed time, over JavaScript
numbers: `start + (target - start) * easing(progress)`. -/
def jsTweenValue (start target : JSNum) (easing : JSNum → JSNum)
    (elapsed duration : JSNum) : JSNum :=
  jsAdd start (jsMul (jsSub target start) (easing (jsProgress elapsed duration)))

/-- whether the tween schedules a further tick: `if (progress < 1)`. -/
def jsSchedulesNext (elapsed duration : JSNum) : Bool :=
  jsLt (jsProgress elapsed duration) (.num 1)

/-- Counterexample to C6 as stated: at duration 0 the very first,
synchronously executed tick runs at elapsed 0, where the progress computation
is `Math.min(0 / 0, 1) = NaN` — division by zero is not avoided — and the
value handed to the update write of a 0-to-100 tween is NaN, not the target
100. -/
theorem zero_duration_first_tick_nan :
    jsProgress (.num 0) (.num 0) = .nan ∧
    jsTweenValue (.num 0) (.num 100) jsEaseOutCubic (.num 0) (.num 0) = .nan ∧
    jsProgress (.num 0) (.num 0) ≠ .num 1 := by
  refine ⟨rfl, ?_, by decide⟩
  show jsAdd (.num 0) (jsMul (jsSub (.num 100) (.num 0)) (jsEaseOutCubic .nan)) = .nan
  rfl

/-- C6 as amended: a tween invoked with duration 0 does stop immediately — at
elapsed 0 the NaN progress fails the `progress < 1` test, so no further tick
is scheduled and the completion branch runs once — but the progress computed
on that tick is NaN rather than 1 and the update write receives NaN rather
than the target; only on a tick with elapsed > 0 does `elapsed / 0 = Infinity`
give progress 1 and the target value. -/
theorem zero_duration_behavior (e a b : ℚ) (he : 0 < e) :
    (jsSchedulesNext (.num 0) (.num 0) = false ∧
      jsProgress (.num 0) (.num 0) = .nan) ∧
    (jsProgress (.num e) (.num 0) = .num 1 ∧
      jsSchedulesNext (.num e) (.num 0) = false ∧
      jsTweenValue (.num a) (.num b) jsEaseOutCubic (.num e) (.num 0) = .num b) := by
  have hdiv : jsDiv (.num e) (.num 0) = .posInf := by
    simp [jsDiv, he, he.ne']
  have hprog : jsProgress (.num e) (.num 0) = .num 1 := by
    rw [jsProgress, hdiv]; rfl
  refine ⟨⟨rfl, rfl⟩, hprog, ?_, ?_⟩
  · rw [jsSchedulesNext, hprog]
    simp [jsLt]
  · rw [jsTweenValue, hprog]
    show jsAdd (.num a) (jsMul (jsSub (.num b) (.num a)) (jsEaseOutCubic (.num 1))) = .num b
    have hease : jsEaseOutCubic (.num 1) = .num 1 := by
      show JSNum.num (1 + -((1 + -1) * (1 + -1) * (1 + -1))) = JSNum.num 1
      congr 1
      norm_num
    rw [hease]
    show JSNum.num (a + (b + -a) * 1) = JSNum.num b
    congr 1
    ring

/-- Witness for the amended C6: a tick at elapsed 1 ms of a 0-duration tween
from 3 to 7 reads progress 1 and writes the target 7. -/
theorem zero_duration_behavior_witness :
    jsProgress (.num 1) (.num 0) = .num 1 ∧
    jsTweenValue (.num 3) (.num 7) jsEaseOutCubic (.num 1) (.num 0) = .num 7 :=
  ⟨(zero_duration_behavior 1 3 7 (by norm_num)).2.1,
   (zero_duration_behavior 1 3 7 (by norm_num)).2.2.2⟩

/-! ## Range of the oscillating-appear easing (C8)

`updateLabelOpacity` assigns `easedProgress + oscillation` to
`material.opacity` without any clamping, in the source or around it. The
claim asserts the sum transiently leaves [0,1] on (0,1); in fact it never
does: the lemmas below bound `oscillatingEase` inside [0,1] on all of [0,1],
splitting on where 10·t falls relative to π, 2π and 3π (the sign regions of
the oscillation term) and using quartic Taylor estimates for sin and cos in
the one region where the two terms compete.
-/

/-- sine is at most its argument on the nonnegative reals. -/
theorem sin_le_arg {x : ℝ} (h : 0 ≤ x) : Real.sin x ≤ x := by
  rcases h.eq_or_lt with h | h
  · rw [← h, Real.sin_zero]
  · exact (Real.sin_lt h).le

/-- quartic Taylor upper estimate for sine on [0, 1]. -/
theorem sin_taylor_upper {x : ℝ} (h0 : 0 ≤ x) (h1 : x ≤ 1) :
    Real.sin x ≤ x - x ^ 3 / 6 + x ^ 4 * (5 / 96) := by
  have hb := Real.sin_bound (by rw [abs_of_nonneg h0]; exact h1)
  rw [abs_of_nonneg h0] at hb
  have := abs_le.mp hb
  linarith [this.2]

/-- quartic Taylor upper estimate for cosine on [-1, 1]. -/
theorem cos_taylor_upper {x : ℝ} (h0 : 0 ≤ x) (h1 : x ≤ 1) :
    Real.cos x ≤ 1 - x ^ 2 / 2 + x ^ 4 * (5 / 96) := by
  have hb := Real.cos_bound (by rw [abs_of_nonneg h0]; exact h1)
  rw [abs_of_nonneg h0] at hb
  have := abs_le.mp hb
  linarith [this.2]

/-- quartic Taylor lower estimate for cosine on [-1, 1]. -/
theorem cos_taylor_lower {x : ℝ} (h0 : 0 ≤ x) (h1 : x ≤ 1) :
    1 - x ^ 2 / 2 - x ^ 4 * (5 / 96) ≤ Real.cos x := by
  have hb := Real.cos_bound (by rw [abs_of_nonneg h0]; exact h1)
  rw [abs_of_nonneg h0] at hb
  have := abs_le.mp hb
  linarith [this.1]

/-- sine is nonpositive between π and 2π. -/
theorem sin_nonpos_pi_two_pi {x : ℝ} (h1 : Real.pi ≤ x) (h2 : x ≤ 2 * Real.pi) :
    Real.sin x ≤ 0 := by
  have h := Real.sin_nonneg_of_nonneg_of_le_pi (x := x - Real.pi)
    (by linarith) (by linarith)
  rw [Real.sin_sub_pi] at h
  linarith

/-- the first factor of the easing rewritten through the complementary angle:
sin(t·π/2) = cos((1-t)·π/2). -/
theorem sin_half_eq_cos_comp (t : ℝ) :
    Real.sin (t * Real.pi / 2) = Real.cos ((1 - t) * (Real.pi / 2)) := by
  rw [← Real.cos_pi_div_two_sub (t * Real.pi / 2)]
  ring_nf

/-- on the right half of the competing region, 1 - sin(t·π/2) dominates a
fixed quadratic in 1 - t. -/
theorem one_sub_sin_quadratic {t : ℝ} (ht : 0.6283 ≤ t) (h1 : t ≤ 1) :
    (1 - t) ^ 2 * 1.1897 ≤ 1 - Real.sin (t * Real.pi / 2) := by
  have hπ : (3.1415:ℝ) < Real.pi := Real.pi_gt_d4
  have hπ' : Real.pi < 3.1416 := Real.pi_lt_d4
  rw [sin_half_eq_cos_comp]
  set u : ℝ := 1 - t with hu
  have hu0 : 0 ≤ u := by simp [hu]; linarith
  have hu1 : u ≤ 0.3717 := by simp [hu]; linarith
  have hx0 : 0 ≤ u * (Real.pi / 2) := by positivity
  have hx1 : u * (Real.pi / 2) ≤ 0.5845 := by nlinarith
  have hcb := cos_taylor_upper hx0 (by linarith)
  have hx2 : u ^ 2 * 2.46725 ≤ (u * (Real.pi / 2)) ^ 2 := by
    have he : (u * (Real.pi / 2)) ^ 2 = u ^ 2 * (Real.pi / 2) ^ 2 := by ring
    rw [he]
    have h2 : (2.46725:ℝ) ≤ (Real.pi / 2) ^ 2 := by nlinarith
    nlinarith [sq_nonneg u]
  have hx2up : (u * (Real.pi / 2)) ^ 2 ≤ 0.34165 := by nlinarith [hx0, hx1]
  have hx4 : (u * (Real.pi / 2)) ^ 4 ≤ (u * (Real.pi / 2)) ^ 2 * 0.34165 := by
    nlinarith [sq_nonneg (u * (Real.pi / 2)), hx2up]
  nlinarith [hcb, hx4, hx2, sq_nonneg u]

/-- linear domination of sine on [0, 1.1248], the distance-to-3π range of the
competing region. -/
theorem sin_le_linear_aux {w : ℝ} (h0 : 0 ≤ w) (h1 : w ≤ 1.1248) :
    Real.sin w ≤ 0.3421 + 0.59485 * w := by
  rcases le_or_lt w 0.84 with hc | hc
  · have := sin_le_arg h0
    linarith
  · rcases le_or_lt w 1 with hd | hd
    · have ht := sin_taylor_upper h0 hd
      nlinarith [sq_nonneg (1 - w), sq_nonneg (w - 0.84), sq_nonneg w,
        mul_nonneg (sub_nonneg.mpr hc.le) (sub_nonneg.mpr hd)]
    · have hπ : (3.1415:ℝ) < Real.pi := Real.pi_gt_d4
      have hπ' : Real.pi < 3.1416 := Real.pi_lt_d4
      have hz0 : 0 ≤ Real.pi / 2 - w := by linarith
      have hz1 : Real.pi / 2 - w ≤ 0.5708 := by linarith
      have hcb := cos_taylor_upper hz0 (by linarith)
      rw [Real.cos_pi_div_two_sub] at hcb
      have hz2 : (Real.pi / 2 - w) ^ 2 ≤ 0.3259 := by nlinarith
      have hz4 : (Real.pi / 2 - w) ^ 4 ≤ (Real.pi / 2 - w) ^ 2 * 0.3259 := by
        nlinarith [sq_nonneg (Real.pi / 2 - w)]
      nlinarith [sq_nonneg (Real.pi / 2 - w)]

/-- in the competing region 2π ≤ 10t ≤ 3π the oscillation factor is dominated
by a linear function of 1 - t. -/
theorem osc_le_defect {t : ℝ} (_h2 : 2 * Real.pi ≤ t * 10) (h3 : t * 10 ≤ 3 * Real.pi)
    (h1 : t ≤ 1) :
    Real.sin (t * 10) * (1 - t) ≤ 5.9485 * (1 - t) ^ 2 := by
  have hπ : (3.1415:ℝ) < Real.pi := Real.pi_gt_d4
  have hπ' : Real.pi < 3.1416 := Real.pi_lt_d4
  have hu0 : (0:ℝ) ≤ 1 - t := by linarith
  rcases le_or_lt (t * 10) 8.3 with hc | hc
  · have hs := Real.sin_le_one (t * 10)
    have hu17 : 0.17 ≤ 1 - t := by linarith
    nlinarith [mul_nonneg hu0 (sub_nonneg.mpr hs),
      mul_nonneg hu0 (sub_nonneg.mpr hu17)]
  · have hid : Real.sin (t * 10) = Real.sin (3 * Real.pi - t * 10) := by
      have he : 3 * Real.pi - t * 10 = Real.pi - t * 10 + 2 * Real.pi := by ring
      rw [he, Real.sin_add_two_pi, Real.sin_pi_sub]
    have hφ0 : 0 ≤ 3 * Real.pi - t * 10 := by linarith
    have hφ1 : 3 * Real.pi - t * 10 ≤ 1.1248 := by linarith
    have hlin := sin_le_linear_aux hφ0 hφ1
    rw [hid]
    nlinarith [hu0, hlin, mul_nonneg hu0 hu0]

set_option maxHeartbeats 1000000 in
/-- the oscillating-appear easing never rises above 1 on [0, 1]. -/
theorem oscillatingEase_le_one {t : ℝ} (h0 : 0 ≤ t) (h1 : t ≤ 1) :
    oscillatingEase t ≤ 1 := by
  have hπ : (3.1415:ℝ) < Real.pi := Real.pi_gt_d4
  have hπ' : Real.pi < 3.1416 := Real.pi_lt_d4
  have hu0 : (0:ℝ) ≤ 1 - t := by linarith
  have hs1 : Real.sin (t * Real.pi / 2) ≤ 1 := Real.sin_le_one _
  unfold oscillatingEase
  rcases le_or_lt (t * 10) Real.pi with hA | hA
  · have hs : Real.sin (t * Real.pi / 2) ≤ t * Real.pi / 2 :=
      sin_le_arg (by positivity)
    have hosc1 : Real.sin (t * 10) ≤ 1 := Real.sin_le_one _
    have ht : t ≤ 0.31416 := by nlinarith
    nlinarith [Real.neg_one_le_sin (t * 10),
      mul_nonneg hu0 (sub_nonneg.mpr hosc1)]
  rcases le_or_lt (t * 10) (2 * Real.pi) with hB | hB
  · have hz : Real.sin (t * 10) ≤ 0 := sin_nonpos_pi_two_pi hA.le hB
    nlinarith [mul_nonneg (neg_nonneg.mpr hz) hu0]
  rcases le_or_lt (t * 10) (3 * Real.pi) with hC | hC
  · have ht : 0.6283 ≤ t := by nlinarith
    have hq := one_sub_sin_quadratic ht h1
    have hd := osc_le_defect hB.le hC h1
    nlinarith
  · have hid : Real.sin (t * 10) = Real.sin (t * 10 - 2 * Real.pi) :=
      (Real.sin_sub_two_pi _).symm
    have hz : Real.sin (t * 10 - 2 * Real.pi) ≤ 0 :=
      sin_nonpos_pi_two_pi (by linarith) (by linarith)
    rw [hid]
    nlinarith [mul_nonneg (neg_nonneg.mpr hz) hu0]

set_option maxHeartbeats 1000000 in
/-- the oscillating-appear easing never falls below 0 on [0, 1]. -/
theorem oscillatingEase_nonneg {t : ℝ} (h0 : 0 ≤ t) (h1 : t ≤ 1) :
    0 ≤ oscillatingEase t := by
  have hπ : (3.1415:ℝ) < Real.pi := Real.pi_gt_d4
  have hπ' : Real.pi < 3.1416 := Real.pi_lt_d4
  have hu0 : (0:ℝ) ≤ 1 - t := by linarith
  have hs1nn : 0 ≤ Real.sin (t * Real.pi / 2) := by
    apply Real.sin_nonneg_of_nonneg_of_le_pi (by positivity)
    nlinarith [Real.pi_pos]
  unfold oscillatingEase
  rcases le_or_lt (t * 10) Real.pi with hA | hA
  · have hz : 0 ≤ Real.sin (t * 10) :=
      Real.sin_nonneg_of_nonneg_of_le_pi (by positivity) hA
    nlinarith [mul_nonneg hz hu0]
  rcases le_or_lt (t * 10) (2 * Real.pi) with hB | hB
  · have ht1 : 0.31415 ≤ t := by nlinarith
    have ht2 : t ≤ 0.62832 := by nlinarith
    have hx0 : 0 < t * Real.pi / 2 := by nlinarith [Real.pi_pos]
    have hx1 : t * Real.pi / 2 ≤ 0.987 := by nlinarith
    have hsc := Real.sin_gt_sub_cube hx0 (by linarith)
    have hx2 : (t * Real.pi / 2) ^ 2 ≤ 0.97417 := by nlinarith
    have hcube : (t * Real.pi / 2) ^ 3 ≤ t * Real.pi / 2 * 0.97417 := by
      nlinarith [hx0.le, hx2]
    have hxl : 1.57075 * t ≤ t * Real.pi / 2 := by nlinarith
    nlinarith [hsc, hcube, hxl, Real.neg_one_le_sin (t * 10),
      mul_nonneg hu0 (by linarith [Real.neg_one_le_sin (t * 10)] :
        (0:ℝ) ≤ 1 + Real.sin (t * 10))]
  rcases le_or_lt (t * 10) (3 * Real.pi) with hC | hC
  · have hid : Real.sin (t * 10) = Real.sin (t * 10 - 2 * Real.pi) :=
      (Real.sin_sub_two_pi _).symm
    have hz : 0 ≤ Real.sin (t * 10 - 2 * Real.pi) :=
      Real.sin_nonneg_of_nonneg_of_le_pi (by linarith) (by linarith)
    rw [hid]
    nlinarith [mul_nonneg hz hu0]
  · have ht : 0.94245 ≤ t := by nlinarith
    rw [sin_half_eq_cos_comp]
    have hy0 : 0 ≤ (1 - t) * (Real.pi / 2) := mul_nonneg hu0 (by positivity)
    have hy1 : (1 - t) * (Real.pi / 2) ≤ 0.0905 := by nlinarith
    have hcl := cos_taylor_lower hy0 (by linarith)
    have hy2 : ((1 - t) * (Real.pi / 2)) ^ 2 ≤ 0.0082 := by nlinarith
    have hy4 : ((1 - t) * (Real.pi / 2)) ^ 4 ≤ 0.0001 := by
      nlinarith [sq_nonneg ((1 - t) * (Real.pi / 2))]
    have hcos : 0.995 ≤ Real.cos ((1 - t) * (Real.pi / 2)) := by linarith
    have hosc : -(0.2 * (1 - t)) ≤ 0.2 * Real.sin (t * 10) * (1 - t) := by
      nlinarith [mul_nonneg hu0 (by linarith [Real.neg_one_le_sin (t * 10)] :
        (0:ℝ) ≤ 1 + Real.sin (t * 10))]
    linarith

/-- Counterexample to C8 as stated: there is no t in (0,1) at which the
oscillating-appear easing leaves the opacity bounds [0,1] — the transient
exceedance the claim asserts does not occur, so there is nothing for a
consumer to clamp (and indeed `updateLabelOpacity` assigns the sum to
`material.opacity` with no clamping anywhere). -/
theorem oscillating_easing_never_exceeds :
    ¬ ∃ t : ℝ, 0 < t ∧ t < 1 ∧ (oscillatingEase t < 0 ∨ 1 < oscillatingEase t) := by
  rintro ⟨t, ht0, ht1, h | h⟩
  · exact absurd (oscillatingEase_nonneg ht0.le ht1.le) (not_le.mpr h)
  · exact absurd (oscillatingEase_le_one ht0.le ht1.le) (not_le.mpr h)

/-- C8 as amended: the oscillating-appear easing stays inside the opacity
bounds [0,1] for every progress value in [0,1], so the unclamped assignment
to `material.opacity` in `updateLabelOpacity` always writes an in-range
opacity; no clamping is performed or needed, by the easing or its consumer. -/
theorem oscillating_easing_stays_in_bounds (t : ℝ) (h0 : 0 ≤ t) (h1 : t ≤ 1) :
    0 ≤ oscillatingEase t ∧ oscillatingEase t ≤ 1 :=
  ⟨oscillatingEase_nonneg h0 h1, oscillatingEase_le_one h0 h1⟩

/-- Witness for the amended C8 at progress 1/2. -/
theorem oscillating_easing_stays_in_bounds_witness :
    0 ≤ oscillatingEase (1 / 2) ∧ oscillatingEase (1 / 2) ≤ 1 :=
  oscillating_easing_stays_in_bounds (1 / 2) (by norm_num) (by norm_num)

end ArenaTarot
